import Mathlib

/-!
Shallow embedding of the case expansion / decomposition / id-generation pipeline
of `pytest_cases` (files `common_pytest.py` and `case_parametrizer_new.py`),
together with theorems checking the specification claims against it.

Python values that flow through the decomposer and the cartesian product
builder are modelled by `PyVal`; raw parametrization entries (either a bare
value or a `pytest.param` / `ParameterSet`) by `RawEntry`; Python exceptions
raised by the translated functions by `PyErr`.
-/

set_option linter.unusedVariables false
set_option maxRecDepth 4000

namespace PytestCases

/-- An opaque Python value as seen by the decomposer: an atom (any
non-sequence, non-lazy object), a tuple of values, a lazy value
(`common_pytest_lazy_values.LazyValue`), or a lazily indexed item obtained
from `as_lazy_items_list` (payload of the originating lazy value and index). -/
inductive PyVal where
  | atom : Nat → PyVal
  | tup : List PyVal → PyVal
  | lazy : Nat → PyVal
  | lazyItem : Nat → Nat → PyVal

/-- A raw argvalue entry: either a bare value, or a marked `ParameterSet`
(`pytest.param`) carrying an optional explicit id, marks (opaque, numbered)
and a tuple of values (`ParameterSet.values`). -/
inductive RawEntry where
  | plain : PyVal → RawEntry
  | pset : Option String → List Nat → List PyVal → RawEntry

/-- Python exceptions raised by the embedded functions. -/
inductive PyErr where
  | indexError : PyErr
  | typeError : PyErr
  | valueError : String → PyErr
  | notImplementedError : String → PyErr
  | assertionError : PyErr
deriving DecidableEq, Repr

/-- Whether an `Except` result is a normal return (no exception raised). -/
def isOkB {α : Type} : Except PyErr α → Bool
  | .ok _ => true
  | .error _ => false

/-- Embedding of `extract_pset_info_single(nbnames, argvalue)`
(common_pytest.py:337-349): returns `(id, marks, value)`.  A marked
`ParameterSet` yields its own id and marks and its value tuple, unwrapped to
the single element `values[0]` when `nbnames == 1` (IndexError on an empty
tuple); a bare value yields `(None, None, argvalue)`. -/
def extract_pset_info_single (nbnames : Nat) (argvalue : RawEntry) :
    Except PyErr (Option String × Option (List Nat) × PyVal) :=
  match argvalue with
  | .pset pid marks vals =>
    if nbnames = 1 then
      match vals with
      | [] => .error .indexError
      | v :: _ => .ok (pid, some marks, v)
    else .ok (pid, some marks, .tup vals)
  | .plain v => .ok (none, none, v)

/-- Python `len()` on a `PyVal`: defined for tuples only, `none` models the
TypeError raised on unsized objects. -/
def pyLen : PyVal → Option Nat
  | .tup vs => some vs.length
  | _ => none

/-- Embedding of `extract_parameterset_info(argnames, argvalues, check_nb)`
(common_pytest.py:308-334): decomposes each entry via
`extract_pset_info_single`, and when `check_nb` holds and more than one
argument name is bound, raises ValueError if the decomposed value's length
differs from the number of names (TypeError if it has no length). -/
def extract_parameterset_info (argnames : List String) (check_nb : Bool) :
    List RawEntry →
      Except PyErr (List (Option String) × List (Option (List Nat)) × List PyVal)
  | [] => .ok ([], [], [])
  | v :: vs =>
    match extract_pset_info_single argnames.length v with
    | .error e => .error e
    | .ok (pid, pmark, pvalue) =>
      if check_nb ∧ 1 < argnames.length then
        match pyLen pvalue with
        | none => .error .typeError
        | some l =>
          if l ≠ argnames.length then
            .error (.valueError ("Inconsistent number of values in pytest parametrize: " ++
              toString l ++ " items found while the number of parameters is " ++
              toString argnames.length ++ "."))
          else
            match extract_parameterset_info argnames check_nb vs with
            | .error e => .error e
            | .ok (pids, pmarks, pvalues) => .ok (pid :: pids, pmark :: pmarks, pvalue :: pvalues)
      else
        match extract_parameterset_info argnames check_nb vs with
        | .error e => .error e
        | .ok (pids, pmarks, pvalues) => .ok (pid :: pids, pmark :: pmarks, pvalue :: pvalues)

/-- One cartesian product combination: accumulated marks and the flat list of
values (one per bound argument name, in dimension order). -/
abbrev Combo := List Nat × List PyVal

/-- The ValueError message raised at common_pytest.py:620-621 when an entry
carries its own explicit id in product mode. -/
def subParamIdMsg : String :=
  "It is not possible to specify a sub-param id when using the new parametrization style. Either use the traditional style or customize all ids at once in idgen"

/-- Embedding of `LazyValue.as_lazy_items_list(nb_names)`: the lazy value is
split into `nb_names` lazily indexed components. -/
def as_lazy_items_list (k nbNames : Nat) : List PyVal :=
  (List.range nbNames).map (fun i => PyVal.lazyItem k i)

/-- Step (2) of the `_cart_product_pytest` loop body
(common_pytest.py:623-631): when more than one argument name is bound, a lazy
value is split lazily, any other value is exploded with `list(...)`
(TypeError when not iterable); with at most one name the value is kept whole. -/
def unpackValue (nbNames : Nat) (v : PyVal) : Except PyErr (List PyVal) :=
  if 1 < nbNames then
    match v with
    | .lazy k => .ok (as_lazy_items_list k nbNames)
    | .tup vs => .ok vs
    | _ => .error .typeError
  else .ok [v]

/-- The `for x in argvalues[0]` loop of `_cart_product_pytest`
(common_pytest.py:612-639).  `anl0` is `argnames_lists[0]` when it exists
(`none` models the IndexError raised on first use otherwise), `sub` is the
pre-computed sub-product (`none` when this is the last dimension). -/
def cpLoop (anl0 : Option (List String)) (sub : Option (List Combo)) :
    List RawEntry → Except PyErr (List Combo)
  | [] => .ok []
  | x :: xs =>
    match anl0 with
    | none => .error .indexError
    | some an0 =>
      match extract_pset_info_single an0.length x with
      | .error e => .error e
      | .ok (xid, xmarks, xval) =>
        let xmarksLst := xmarks.getD []
        match xid with
        | some _ => .error (.valueError subParamIdMsg)
        | none =>
          match unpackValue an0.length xval with
          | .error e => .error e
          | .ok xvalLst =>
            match cpLoop anl0 sub xs with
            | .error e => .error e
            | .ok rest =>
              match sub with
              | some sp => .ok ((sp.map (fun mp => (xmarksLst ++ mp.1, xvalLst ++ mp.2))) ++ rest)
              | none => .ok ((xmarksLst, xvalLst) :: rest)

/-- Embedding of `_cart_product_pytest(argnames_lists, argvalues)`
(common_pytest.py:605-641): the first dimension is combined with the
recursively built product of the remaining ones; an empty dimension list
raises IndexError on `argvalues[0]`. -/
def _cart_product_pytest : List (List String) → List (List RawEntry) →
    Except PyErr (List Combo)
  | _, [] => .error .indexError
  | anl, av0 :: avrest =>
    match avrest with
    | [] => cpLoop anl.head? none av0
    | b :: bs =>
      match _cart_product_pytest anl.tail (b :: bs) with
      | .error e => .error e
      | .ok sp => cpLoop anl.head? (some sp) av0

/-- The explicit id carried by a raw entry (`ParameterSet.id`, `None` for
bare values). -/
def entryId : RawEntry → Option String
  | .plain _ => none
  | .pset pid _ _ => pid

-- ### Test id generation (common_pytest.py:190-271)

/-- The `ids` argument of a parametrization: either an explicit list of id
tokens or a callable applied to each value (common_pytest.py:221-224). -/
inductive GlobalIds where
  | lst : List String → GlobalIds
  | fv : (PyVal → String) → GlobalIds

/-- The `global_ids is not None` branch of `make_test_ids`
(common_pytest.py:219-224): a listable object is listed, otherwise the
callable is applied to each argvalue (TypeError models iterating `None`
argvalues). -/
def globalPids (g : GlobalIds) (argvalues : Option (List PyVal)) :
    Except PyErr (List String) :=
  match g with
  | .lst l => .ok l
  | .fv f =>
    match argvalues with
    | some avs => .ok (avs.map f)
    | none => .error .typeError

/-- The final loop of `make_test_ids` (common_pytest.py:234-237): each
non-None per-value id mark overwrites `p_ids[i]`; assigning past the end of
`p_ids` raises IndexError. -/
def applyIdMarks : List String → List (Option String) → Except PyErr (List String)
  | ids, [] => .ok ids
  | ids, m :: ms =>
    match ids with
    | [] =>
      match m with
      | some _ => .error .indexError
      | none =>
        match applyIdMarks [] ms with
        | .error e => .error e
        | .ok _ => .ok []
    | x :: xs =>
      match applyIdMarks xs ms with
      | .error e => .error e
      | .ok rest => .ok (m.getD x :: rest)

/-- Embedding of `mini_idvalset(argnames, argvalues, idx)`
(common_pytest.py:459-465), parametric in the external pytest `_idval`
helper: per-argument tokens joined with a dash. -/
def mini_idvalset (idval : PyVal → String → Nat → String)
    (argnames : List String) (argvalues : List PyVal) (idx : Nat) : String :=
  String.intercalate "-" (argvalues.zipWith (fun v n => idval v n idx) argnames)

/-- The `nb_params > 1` loop of `make_test_ids_from_param_values`
(common_pytest.py:264-270): each value set must be a tuple of exactly
`nb_params` items (ValueError otherwise, TypeError if unsized). -/
def mtifLoop (idval : PyVal → String → Nat → String) (names : List String) :
    List PyVal → Nat → Except PyErr (List String)
  | [], _ => .ok []
  | vv :: rest, idx =>
    match vv with
    | .tup items =>
      if items.length ≠ names.length then
        .error (.valueError "Inconsistent lenghts for parameter names and values")
      else
        match mtifLoop idval names rest (idx + 1) with
        | .error e => .error e
        | .ok out => .ok (mini_idvalset idval names items idx :: out)
    | _ => .error .typeError

/-- Embedding of `make_test_ids_from_param_values(param_names, param_values)`
(common_pytest.py:241-271), parametric in the external `_idval`.  `none`
arguments model Python `None` (TypeError on use). -/
def make_test_ids_from_param_values (idval : PyVal → String → Nat → String)
    (param_names : Option (List String)) (param_values : Option (List PyVal)) :
    Except PyErr (List String) :=
  match param_names with
  | none => .error .typeError
  | some names =>
    if names.length = 0 then .error (.valueError "empty list provided")
    else
      match param_values with
      | none => .error .typeError
      | some vals =>
        if names.length = 1 then
          .ok (vals.enum.map (fun iv => mini_idvalset idval names [iv.2] iv.1))
        else mtifLoop idval names vals 0

/-- Embedding of `make_test_ids(global_ids, id_marks, argnames, argvalues,
precomputed_ids)` (common_pytest.py:202-238): a caller-supplied global `ids`
takes precedence over value-derived (or precomputed) ids, and per-value
`pytest.param` id marks override the result entrywise. -/
def make_test_ids (global_ids : Option GlobalIds) (id_marks : List (Option String))
    (argnames : Option (List String)) (argvalues : Option (List PyVal))
    (precomputed_ids : Option (List String))
    (idval : PyVal → String → Nat → String) : Except PyErr (List String) :=
  match global_ids with
  | some g =>
    match globalPids g argvalues with
    | .error e => .error e
    | .ok p_ids => applyIdMarks p_ids id_marks
  | none =>
    match precomputed_ids with
    | some pre =>
      if argnames.isSome || argvalues.isSome then
        .error (.valueError "Only one of precomputed_ids or argnames/argvalues should be provided.")
      else applyIdMarks pre id_marks
    | none =>
      match make_test_ids_from_param_values idval argnames argvalues with
      | .error e => .error e
      | .ok p_ids => applyIdMarks p_ids id_marks

/-- A constant stand-in for the external `_idval` used in concrete
instantiations. -/
def idvalStub (v : PyVal) (argname : String) (idx : Nat) : String := "x"

-- ### Lazy value / fixture binder (case_parametrizer_new.py:241-296)

/-- The mutable attribute table of the host (module or class) on which
case fixtures are registered by `setattr`; a producer is identified by an
opaque number (the identity of the underlying case function). -/
structure HostState where
  fixtures : List (String × Nat)
deriving DecidableEq, Repr

/-- The data of a case function as consumed by `case_to_argvalues`: its
resolved case id and marks (`CaseInfo`), whether `MiniMetafunc` reports
required fixtures and parametrization, the parametrized calls
(`meta._calls`: call id, call marks, funcargs token), and the identity of the
underlying producer function. -/
structure CaseFunB where
  caseId : String
  caseMarks : List Nat
  requiresFixtures : Bool
  isParametrized : Bool
  calls : List (String × List Nat × Nat)
  producer : Nat
deriving DecidableEq, Repr

/-- An argvalue produced by `case_to_argvalues`: a `lazy_value` (producer,
optional funcargs token of the partial application, id, marks), a
`fixture_ref` by fixture name, or a mark-wrapped parameter set
(`make_marked_parameter_value`). -/
inductive Argvalue where
  | lazyValue : Nat → Option Nat → String → List Nat → Argvalue
  | fixtureRef : String → Argvalue
  | marked : List Nat → List Argvalue → Argvalue

/-- `getattr(host, name, None)` on the fixture table. -/
def getattrFixture (h : HostState) (name : String) : Option Nat :=
  (h.fixtures.find? (fun p => p.1 == name)).map Prod.snd

/-- `setattr(host, name, fixture)` on the fixture table. -/
def setattrFixture (h : HostState) (name : String) (producer : Nat) : HostState :=
  ⟨(name, producer) :: h.fixtures⟩

/-- The NotImplementedError message at case_parametrizer_new.py:291-292. -/
def notImplMsg : String :=
  "We should check if this is the same or another and generate a new name in that case"

/-- Embedding of `case_to_argvalues(case_fun)`
(case_parametrizer_new.py:241-296).  The host attribute table is passed and
returned explicitly.  A case with no required fixture yields one
`lazy_value` (or one per parametrized call); a case requiring fixtures looks
up `getattr(host, case_id, None)`: when absent, a fixture for the case is
created and registered on the host and a `fixture_ref` is returned
(mark-wrapped when the case has marks); when an attribute with that name
already exists, NotImplementedError is raised. -/
def case_to_argvalues (host : HostState) (c : CaseFunB) :
    Except PyErr (HostState × List Argvalue) :=
  if !c.requiresFixtures then
    if !c.isParametrized then
      .ok (host, [Argvalue.lazyValue c.producer none c.caseId c.caseMarks])
    else
      .ok (host, c.calls.map (fun call =>
        Argvalue.lazyValue c.producer (some call.2.2) (c.caseId ++ "-" ++ call.1) call.2.1))
  else
    match getattrFixture host c.caseId with
    | none =>
      let newHost := setattrFixture host c.caseId c.producer
      let avs := [Argvalue.fixtureRef c.caseId]
      .ok (newHost, if c.caseMarks ≠ [] then [Argvalue.marked c.caseMarks avs] else avs)
    | some _ => .error (.notImplementedError notImplMsg)

-- ### Auto-discovery of the cases module (case_parametrizer_new.py:299-326)

/-- Splits a dotted module path on the dots, like Python
`module_name.split(".")`. -/
def splitDotAux : List Char → List Char → List String
  | [], acc => [String.mk acc.reverse]
  | c :: cs, acc =>
    if c == Char.ofNat 46 then String.mk acc.reverse :: splitDotAux cs []
    else splitDotAux cs (c :: acc)

/-- Python `s.split(".")`. -/
def splitDot (s : String) : List String := splitDotAux s.data []

/-- Python `".".join(parts)`. -/
def joinDots : List String → String
  | [] => ""
  | [x] => x
  | x :: y :: rest => x ++ "." ++ joinDots (y :: rest)

/-- The derived cases module name (case_parametrizer_new.py:312-317): the
`<host>_cases` suffix form, or with `alt_name` the `cases_<basename>` form
(asserting that the host basename starts with `test_`). -/
def derive_cases_module_name (hostModule : String) (altName : Bool) :
    Except PyErr String :=
  if altName then
    let parts := splitDot hostModule
    match parts.getLast? with
    | none => .error .assertionError
    | some base =>
      if String.mk (base.data.take 5) = "test_" then
        .ok (joinDots parts.dropLast ++ ".cases_" ++ String.mk (base.data.drop 5))
      else .error .assertionError
  else .ok (hostModule ++ "_cases")

/-- The ValueError message raised at case_parametrizer_new.py:322-325 when
the derived cases module cannot be imported: it names the decorated function,
the AUTO mode, and the single attempted module name. -/
def autoImportErrMsg (fRepr : String) (alt : Bool) (cname : String) : String :=
  "Error importing test cases module to parametrize function " ++ fRepr ++
  ": unable to import AUTO" ++ (if alt then "2" else "") ++ " cases module " ++
  cname ++ ". Maybe you wish to import cases from somewhere else ? In that case please specify cases=..."

/-- Embedding of `import_default_cases_module(f, alt_name)`
(case_parametrizer_new.py:299-326).  `importable` stands for the set of
module names the external import system can resolve; `fRepr` is the repr of
the decorated test function, `hostModule` its `__module__`. -/
def import_default_cases_module (importable : List String)
    (hostModule fRepr : String) (altName : Bool) : Except PyErr String :=
  match derive_cases_module_name hostModule altName with
  | .error e => .error e
  | .ok cname =>
    if importable.contains cname then .ok cname
    else .error (.valueError (autoImportErrMsg fRepr altName cname))

/-- Boolean prefix test on character lists. -/
def listIsPrefixB : List Char → List Char → Bool
  | [], _ => true
  | _ :: _, [] => false
  | a :: as, b :: bs => a == b && listIsPrefixB as bs

/-- Whether `needle` occurs as a contiguous substring of `hay`. -/
def strContainsB (hay needle : String) : Bool :=
  (List.range (hay.data.length + 1)).any
    (fun i => listIsPrefixB needle.data (hay.data.drop i))

-- ### Case collection (case_parametrizer_new.py:348-485 and 127-219)

/-- The data of a member function found by the object-graph walker
(`getmembers`): declared name, first source line (`get_code_first_line`),
whether the class dict entry is a staticmethod/classmethod, the result of the
external `is_case_function(m, prefix)` predicate, the function's pytest marks
and `CaseInfo` id, and the host class captured when the method is partially
applied to a fresh class instance (`None` for plain functions). -/
structure CaseFn where
  name : String
  firstline : Nat
  isStaticOrClassmethod : Bool
  isCaseFun : Bool
  marks : List Nat
  caseInfoId : Option String
  bound : Option String := none
deriving DecidableEq, Repr

/-- A member enumerated by the object-graph walker: a function, or a class
(name, first line, result of the external `*Case*` name-pattern check used by
`is_case_class`, `hasinit`, `hasnew`, and its own members). -/
inductive Mem where
  | fn : CaseFn → Mem
  | cl : String → Nat → Bool → Bool → Bool → List Mem → Mem

/-- Result of the external `is_case_class(cls, check_name)` predicate
(case_funcs_new): with `check_name=False` any class qualifies, otherwise the
`*Case*` name-pattern result (`nameMatches`) decides. -/
def is_case_class (nameMatches checkName : Bool) : Bool :=
  !checkName || nameMatches

/-- Warning message at case_parametrizer_new.py:366-371. -/
def initConstructorWarning (name : String) : String :=
  "cannot collect cases class " ++ name ++ " because it has a __init__ constructor"

/-- Warning message at case_parametrizer_new.py:375-380. -/
def newConstructorWarning (name : String) : String :=
  "cannot collect test class " ++ name ++ " because it has a __new__ constructor"

/-- The partialization at case_parametrizer_new.py:464-472: the method is
partially applied to a fresh instance of the class, remembering the host
class, while the original name, `CaseInfo` and pytest marks are copied over
(so every other field is preserved). -/
def bindToClass (h : String) (f : CaseFn) : CaseFn :=
  { f with bound := some h }

/-- Python dict assignment `d[k] = v` on an insertion-ordered association
list: an existing key keeps its position and gets the new value, a fresh key
is appended. -/
def dctInsert (d : List (Rat × CaseFn)) (k : Rat) (v : CaseFn) :
    List (Rat × CaseFn) :=
  if d.any (fun p => p.1 == k) then
    d.map (fun p => if p.1 == k then (k, v) else p)
  else d ++ [(k, v)]

/-- The keys given to the cases of a nested case class
(case_parametrizer_new.py:454-456): the class's own first line plus the
fractional offset `i / len(cls_cases)` (Python true division). -/
def assignClassKeys (fl : Nat) (cs : List CaseFn) : List (Rat × CaseFn) :=
  cs.enum.map (fun ic => ((fl : Rat) + (ic.1 : Rat) / (cs.length : Rat), ic.2))

/-- Ordering of the case dictionary by key, as used by
`sorted(cases_dct.keys())`. -/
abbrev keyLE (p q : Rat × CaseFn) : Prop := p.1 ≤ q.1

instance : DecidableRel keyLE := fun p q => inferInstanceAs (Decidable (p.1 ≤ q.1))

instance : IsTotal (Rat × CaseFn) keyLE := ⟨fun a b => le_total a.1 b.1⟩

instance : IsTrans (Rat × CaseFn) keyLE := ⟨fun _ _ _ h1 h2 => le_trans h1 h2⟩

mutual

/-- The contribution of one member to the case dictionary
(case_parametrizer_new.py:450-480, `_case_param_factory=None`): the warnings
emitted and the keyed cases inserted.  A case class contributes the cases
extracted from it (`extract_cases_from_class` with the default
`check_name=True`, inlined here so that the recursion is structural; the
wrapper below is definitionally the same) under fractional keys; a case
function contributes itself under its first line — inside a class,
staticmethods/classmethods are skipped and other methods are partialized onto
a fresh class instance.  `host` is the name of the containing class (`none`
for a module). -/
def memContrib (m : Mem) (host : Option String) :
    List String × List (Rat × CaseFn) :=
  match m with
  | Mem.cl name fl nameMatches hasI hasN ms =>
    if is_case_class nameMatches true then
      let r :=
        if is_case_class nameMatches true then
          if hasI then ([initConstructorWarning name], [])
          else if hasN then ([newConstructorWarning name], [])
          else
            let b := buildDctAux [] [] ms (some name)
            (b.1, (List.insertionSort keyLE b.2).map Prod.snd)
        else ([], [])
      (r.1, assignClassKeys fl r.2)
    else ([], [])
  | Mem.fn f =>
    if f.isCaseFun then
      match host with
      | some h =>
        if f.isStaticOrClassmethod then ([], [])
        else ([], [((f.firstline : Rat), bindToClass h f)])
      | none => ([], [((f.firstline : Rat), f)])
    else ([], [])

/-- The member loop of `_extract_cases_from_module_or_class`
(case_parametrizer_new.py:450-480) over the walker's member list, with the
accumulated dictionary and warnings. -/
def buildDctAux (acc : List (Rat × CaseFn)) (ws : List String)
    (ms : List Mem) (host : Option String) :
    List String × List (Rat × CaseFn) :=
  match ms with
  | [] => (ws, acc)
  | m :: rest =>
    let r := memContrib m host
    buildDctAux (r.2.foldl (fun d e => dctInsert d e.1 e.2) acc) (ws ++ r.1) rest host

end

/-- Embedding of `_extract_cases_from_module_or_class`
(case_parametrizer_new.py:416-485): the case dictionary built from the
members is read out in ascending key order (`sorted(cases_dct.keys())`;
since `dctInsert` keeps keys unique, sorting the pairs by key is the same
lookup list). -/
def extractFromMembers (ms : List Mem) (host : Option String) :
    List String × List CaseFn :=
  let r := buildDctAux [] [] ms host
  (r.1, (List.insertionSort keyLE r.2).map Prod.snd)

/-- Embedding of `extract_cases_from_class(cls, check_name, ...)`
(case_parametrizer_new.py:348-387): non-case classes contribute nothing; a
case class with its own `__init__` (resp. `__new__`) is skipped with a
warning and contributes no case; otherwise its members are extracted.  With
`checkName = true` this is definitionally the class branch of `memContrib`
before key assignment. -/
def extract_cases_from_class (name : String) (fl : Nat)
    (nameMatches hasI hasN : Bool) (ms : List Mem) (checkName : Bool) :
    List String × List CaseFn :=
  if is_case_class nameMatches checkName then
    if hasI then ([initConstructorWarning name], [])
    else if hasN then ([newConstructorWarning name], [])
    else extractFromMembers ms (some name)
  else ([], [])

/-- The case dictionary of a container, as a key-sorted pair list (the keyed
form of the `_extract_cases_from_module_or_class` result). -/
def collectedKeyed (ms : List Mem) (host : Option String) :
    List (Rat × CaseFn) :=
  List.insertionSort keyLE (buildDctAux [] [] ms host).2

/-- A `cases` provider handed to `get_all_cases`: an explicitly given class,
an explicitly given callable (with the result of the
`is_case_function(c, check_prefix=False)` check), or a module with its
walker-visible own members. -/
inductive Provider where
  | pcls : String → Nat → Bool → Bool → Bool → List Mem → Provider
  | pfun : CaseFn → Bool → Provider
  | pmod : List Mem → Provider

/-- The provider loop of `get_all_cases` (case_parametrizer_new.py:190-212):
classes are extracted with `check_name=False`, callables are appended (or
rejected), modules are scanned; contributions are concatenated in provider
order. -/
def providerCases : Provider → Except PyErr (List String × List CaseFn)
  | .pcls name fl nameMatches hasI hasN ms =>
    .ok (extract_cases_from_class name fl nameMatches hasI hasN ms false)
  | .pfun f isCaseFunChecked =>
    if isCaseFunChecked then .ok ([], [f])
    else .error (.valueError "Unsupported case function")
  | .pmod ms => .ok (extractFromMembers ms none)

/-- The collection part of `get_all_cases` over a provider list. -/
def get_all_cases_collect : List Provider →
    Except PyErr (List String × List CaseFn)
  | [] => .ok ([], [])
  | p :: ps =>
    match providerCases p with
    | .error e => .error e
    | .ok r1 =>
      match get_all_cases_collect ps with
      | .error e => .error e
      | .ok r2 => .ok (r1.1 ++ r2.1, r1.2 ++ r2.2)

/-- Embedding of `get_all_cases` (case_parametrizer_new.py:190-219): collect
from all providers in order, then filter last with the combined
`CaseInfo`/tag/glob/filter predicate `keep` (external, abstracted), which
preserves relative order. -/
def get_all_cases (ps : List Provider) (keep : CaseFn → Bool) :
    Except PyErr (List String × List CaseFn) :=
  match get_all_cases_collect ps with
  | .error e => .error e
  | .ok r => .ok (r.1, r.2.filter keep)

/-- The trivial filter (no glob, no tag query, no predicate). -/
def keepAll (c : CaseFn) : Bool := true

/-- The collected case list of a collection result (empty on error). -/
def casesOf (r : Except PyErr (List String × List CaseFn)) : List CaseFn :=
  match r with
  | .ok p => p.2
  | .error _ => []

/-- Boolean check that a list of naturals is ascending. -/
def ascNat : List Nat → Bool
  | [] => true
  | [_] => true
  | a :: b :: t => decide (a ≤ b) && ascNat (b :: t)

-- ### Helper lemmas about the product builder

/-- `extract_pset_info_single` returns the entry's own explicit id. -/
theorem extract_ok_entryId (n : Nat) (x : RawEntry) (pid : Option String)
    (pm : Option (List Nat)) (v : PyVal)
    (h : extract_pset_info_single n x = .ok (pid, pm, v)) : entryId x = pid := by
  cases x with
  | plain w =>
    simp only [extract_pset_info_single] at h
    cases h
    rfl
  | pset i marks vals =>
    simp only [extract_pset_info_single] at h
    split at h
    · cases vals with
      | nil => cases h
      | cons a as => cases h; rfl
    · cases h; rfl

/-- If the product loop returned normally, every processed entry had no
explicit id. -/
theorem cpLoop_ok_no_id (anl0 : Option (List String)) (sub : Option (List Combo)) :
    ∀ (xs : List RawEntry) (res : List Combo), cpLoop anl0 sub xs = .ok res →
      ∀ x ∈ xs, entryId x = none := by
  intro xs
  induction xs with
  | nil => intro res h x hx; cases hx
  | cons y ys ih =>
    intro res h x hx
    rw [cpLoop.eq_def] at h
    cases anl0 with
    | none => dsimp only at h; cases h
    | some an0 =>
      dsimp only at h
      cases hex : extract_pset_info_single an0.length y with
      | error e => rw [hex] at h; cases h
      | ok triple =>
        obtain ⟨yid, ym, yv⟩ := triple
        rw [hex] at h
        cases yid with
        | some s => cases h
        | none =>
          dsimp only at h
          cases hun : unpackValue an0.length yv with
          | error e => rw [hun] at h; cases h
          | ok yvl =>
            rw [hun] at h
            cases hrec : cpLoop (some an0) sub ys with
            | error e => rw [hrec] at h; cases h
            | ok rest =>
              rw [hrec] at h
              cases hx with
              | head => exact extract_ok_entryId _ _ _ _ _ hex
              | tail _ hmem => exact ih rest hrec x hmem

/-- If the whole cartesian product returned normally, every entry of every
dimension had no explicit id. -/
theorem cart_ok_no_id :
    ∀ (avl : List (List RawEntry)) (anl : List (List String)) (res : List Combo),
      _cart_product_pytest anl avl = .ok res →
      ∀ dim ∈ avl, ∀ x ∈ dim, entryId x = none := by
  intro avl
  induction avl with
  | nil => intro anl res h; cases h
  | cons av0 avrest ih =>
    intro anl res h dim hdim x hx
    rw [_cart_product_pytest.eq_def] at h
    cases avrest with
    | nil =>
      dsimp only at h
      rcases List.mem_singleton.mp hdim with rfl
      exact cpLoop_ok_no_id _ _ _ _ h x hx
    | cons b bs =>
      dsimp only at h
      cases hsub : _cart_product_pytest anl.tail (b :: bs) with
      | error e => rw [hsub] at h; cases h
      | ok sp =>
        rw [hsub] at h
        cases hdim with
        | head => exact cpLoop_ok_no_id _ _ _ _ h x hx
        | tail _ hmem => exact ih anl.tail sp hsub dim hmem x hx

/-- Length of a normal product-loop result: one block per entry, each block
as long as the sub-product (or a single combination for the last dimension). -/
theorem cpLoop_ok_length (anl0 : Option (List String)) (sub : Option (List Combo)) :
    ∀ (xs : List RawEntry) (res : List Combo), cpLoop anl0 sub xs = .ok res →
      res.length = xs.length * (match sub with | some sp => sp.length | none => 1) := by
  intro xs
  induction xs with
  | nil =>
    intro res h
    rw [cpLoop] at h
    cases h
    simp
  | cons y ys ih =>
    intro res h
    rw [cpLoop.eq_def] at h
    cases anl0 with
    | none => dsimp only at h; cases h
    | some an0 =>
      dsimp only at h
      cases hex : extract_pset_info_single an0.length y with
      | error e => rw [hex] at h; cases h
      | ok triple =>
        obtain ⟨yid, ym, yv⟩ := triple
        rw [hex] at h
        cases yid with
        | some s => cases h
        | none =>
          dsimp only at h
          cases hun : unpackValue an0.length yv with
          | error e => rw [hun] at h; cases h
          | ok yvl =>
            rw [hun] at h
            cases hrec : cpLoop (some an0) sub ys with
            | error e => rw [hrec] at h; cases h
            | ok rest =>
              rw [hrec] at h
              have hr := ih rest hrec
              cases sub with
              | some sp =>
                cases h
                simp only [List.length_append, List.length_map, hr, List.length_cons]
                ring
              | none =>
                cases h
                simp only [List.length_cons, hr]
                ring

-- ### Claim C1

/-- Claim C1: for every non-empty list of dimensions with non-empty raw-entry
sequences, a combination list returned by `_cart_product_pytest` has length
equal to the product of the dimensions' raw-entry sequence lengths. -/
theorem cart_product_size_law :
    ∀ (avl : List (List RawEntry)) (anl : List (List String)) (res : List Combo),
      avl ≠ [] → (∀ dim ∈ avl, dim ≠ []) →
      _cart_product_pytest anl avl = .ok res →
      res.length = (avl.map List.length).prod := by
  intro avl
  induction avl with
  | nil => intro anl res hne _ h; cases h
  | cons av0 avrest ih =>
    intro anl res _ hdims h
    rw [_cart_product_pytest.eq_def] at h
    cases avrest with
    | nil =>
      dsimp only at h
      have := cpLoop_ok_length anl.head? none av0 res h
      simpa using this
    | cons b bs =>
      dsimp only at h
      cases hsub : _cart_product_pytest anl.tail (b :: bs) with
      | error e => rw [hsub] at h; cases h
      | ok sp =>
        rw [hsub] at h
        have hsp := ih anl.tail sp (by simp) (fun d hd => hdims d (List.mem_cons_of_mem _ hd)) hsub
        have hlen := cpLoop_ok_length anl.head? (some sp) av0 res h
        dsimp only at hlen
        rw [List.map_cons, List.prod_cons, ← hsp]
        exact hlen

/-- Witness for C1: a concrete two-dimensional product of sizes 2 and 3 has
6 combinations. -/
theorem cart_product_size_law_witness :
    ([([], [PyVal.atom 0, PyVal.atom 2]), ([], [PyVal.atom 0, PyVal.atom 3]),
      ([], [PyVal.atom 0, PyVal.atom 4]), ([], [PyVal.atom 1, PyVal.atom 2]),
      ([], [PyVal.atom 1, PyVal.atom 3]), ([], [PyVal.atom 1, PyVal.atom 4])] :
        List Combo).length
      = (([[RawEntry.plain (PyVal.atom 0), RawEntry.plain (PyVal.atom 1)],
          [RawEntry.plain (PyVal.atom 2), RawEntry.plain (PyVal.atom 3),
           RawEntry.plain (PyVal.atom 4)]]).map List.length).prod :=
  cart_product_size_law
    [[RawEntry.plain (PyVal.atom 0), RawEntry.plain (PyVal.atom 1)],
     [RawEntry.plain (PyVal.atom 2), RawEntry.plain (PyVal.atom 3),
      RawEntry.plain (PyVal.atom 4)]]
    [["a"], ["b"]] _
    (by simp)
    (by
      intro dim hdim
      simp only [List.mem_cons, List.mem_singleton] at hdim
      rcases hdim with rfl | rfl | h
      · simp
      · simp
      · cases h)
    rfl

-- ### Claim C3

/-- Claim C3: if any raw entry of any dimension carries a non-None explicit
id, the cartesian product builder raises (returns an exception), producing no
combination list. -/
theorem cart_product_forbids_explicit_id
    (anl : List (List String)) (avl : List (List RawEntry))
    (dim : List RawEntry) (x : RawEntry) (s : String)
    (hdim : dim ∈ avl) (hx : x ∈ dim) (hid : entryId x = some s) :
    isOkB (_cart_product_pytest anl avl) = false := by
  cases h : _cart_product_pytest anl avl with
  | error e => rfl
  | ok res =>
    have := cart_ok_no_id avl anl res h dim hdim x hx
    rw [hid] at this
    cases this

/-- Witness for C3: one dimension whose single entry is a `pytest.param`
with explicit id `boom` makes the product raise. -/
theorem cart_product_forbids_explicit_id_witness :
    isOkB (_cart_product_pytest [["a"]]
      [[RawEntry.pset (some "boom") [] [PyVal.atom 1]]]) = false :=
  cart_product_forbids_explicit_id [["a"]]
    [[RawEntry.pset (some "boom") [] [PyVal.atom 1]]]
    [RawEntry.pset (some "boom") [] [PyVal.atom 1]]
    (RawEntry.pset (some "boom") [] [PyVal.atom 1]) "boom"
    (List.mem_singleton.mpr rfl) (List.mem_singleton.mpr rfl) rfl

-- ### Claim C4

/-- Counterexample for C4 as stated: inside the cartesian product builder, a
raw entry bound to two argument names whose value is a 3-tuple is decomposed
and silently passed through (three values in the combination), with no
InconsistentArgumentCount error. -/
theorem cart_product_no_arity_check :
    _cart_product_pytest [["a", "b"]]
      [[RawEntry.plain (PyVal.tup [PyVal.atom 1, PyVal.atom 2, PyVal.atom 3])]]
      = .ok [([], [PyVal.atom 1, PyVal.atom 2, PyVal.atom 3])] := rfl

/-- Claim C4 (amended): in `extract_parameterset_info` with `check_nb=True`,
decomposing an entry bound to more than one argument name whose unwrapped
value is a tuple of a different arity raises (no silent truncation). -/
theorem extract_parameterset_info_arity_error
    (argnames : List String) (argvalues : List RawEntry)
    (v : RawEntry) (pid : Option String) (pm : Option (List Nat)) (ws : List PyVal)
    (hn : 1 < argnames.length) (hv : v ∈ argvalues)
    (hw : extract_pset_info_single argnames.length v = .ok (pid, pm, PyVal.tup ws))
    (hlen : ws.length ≠ argnames.length) :
    isOkB (extract_parameterset_info argnames true argvalues) = false := by
  induction argvalues with
  | nil => cases hv
  | cons y ys ih =>
    rw [extract_parameterset_info.eq_def]
    dsimp only
    cases hex : extract_pset_info_single argnames.length y with
    | error e => rfl
    | ok triple =>
      obtain ⟨yid, ym, yv⟩ := triple
      dsimp only
      rw [if_pos ⟨rfl, hn⟩]
      rcases List.mem_cons.mp hv with rfl | hmem
      · rw [hw] at hex
        cases hex
        dsimp only [pyLen]
        rw [if_pos hlen]
        rfl
      · cases yv with
        | tup zs =>
          dsimp only [pyLen]
          by_cases hz : zs.length ≠ argnames.length
          · rw [if_pos hz]; rfl
          · rw [if_neg hz]
            cases hrec : extract_parameterset_info argnames true ys with
            | error e => rfl
            | ok out =>
              have := ih hmem
              rw [hrec] at this
              cases this
        | atom n => rfl
        | lazy k => rfl
        | lazyItem k i => rfl

/-- Witness for C4 (amended): two names, a bare 3-tuple entry: the checked
decomposition raises. -/
theorem extract_parameterset_info_arity_error_witness :
    isOkB (extract_parameterset_info ["a", "b"] true
      [RawEntry.plain (PyVal.tup [PyVal.atom 1, PyVal.atom 2, PyVal.atom 3])]) = false :=
  extract_parameterset_info_arity_error ["a", "b"]
    [RawEntry.plain (PyVal.tup [PyVal.atom 1, PyVal.atom 2, PyVal.atom 3])]
    (RawEntry.plain (PyVal.tup [PyVal.atom 1, PyVal.atom 2, PyVal.atom 3]))
    none none [PyVal.atom 1, PyVal.atom 2, PyVal.atom 3]
    (by simp) (List.mem_singleton.mpr rfl) rfl (by simp)

-- ### Claim C7

/-- Counterexample for C7 as stated: a bare entry decomposes to
`(None, None, value)`; the marks component is `None`, not the empty list. -/
theorem bare_entry_marks_are_none :
    extract_pset_info_single 1 (RawEntry.plain (PyVal.atom 5))
      = .ok (none, none, PyVal.atom 5)
    ∧ extract_pset_info_single 1 (RawEntry.plain (PyVal.atom 5))
      ≠ .ok (none, some [], PyVal.atom 5) := by
  refine ⟨rfl, fun h => ?_⟩
  have := Except.ok.inj h
  simp at this

/-- Claim C7 (amended): a bare value decomposes to `(None, None, value)`
(the no-marks indicator is `None`, treated as the empty mark list downstream);
an annotated entry bound to exactly one name unwraps its value tuple to the
single first element, and for any other name count keeps the whole tuple. -/
theorem extract_pset_info_single_decomposition
    (n : Nat) (v w : PyVal) (pid : Option String) (marks : List Nat)
    (vals ws : List PyVal) :
    (extract_pset_info_single n (RawEntry.plain v) = .ok (none, none, v))
    ∧ (vals = w :: ws →
        extract_pset_info_single 1 (RawEntry.pset pid marks vals)
          = .ok (pid, some marks, w))
    ∧ (n ≠ 1 →
        extract_pset_info_single n (RawEntry.pset pid marks vals)
          = .ok (pid, some marks, PyVal.tup vals)) := by
  refine ⟨rfl, fun hv => ?_, fun hn => ?_⟩
  · subst hv; rfl
  · simp only [extract_pset_info_single, if_neg hn]

/-- Witness for C7 (amended): concrete decompositions of a bare atom, a
one-name annotated pair and a two-name annotated pair. -/
theorem extract_pset_info_single_decomposition_witness :
    extract_pset_info_single 2 (RawEntry.plain (PyVal.atom 3))
      = .ok (none, none, PyVal.atom 3)
    ∧ extract_pset_info_single 1 (RawEntry.pset (some "i") [1] [PyVal.atom 7])
      = .ok (some "i", some [1], PyVal.atom 7)
    ∧ extract_pset_info_single 2 (RawEntry.pset none [] [PyVal.atom 1, PyVal.atom 2])
      = .ok (none, some [], PyVal.tup [PyVal.atom 1, PyVal.atom 2]) :=
  ⟨(extract_pset_info_single_decomposition 2 (PyVal.atom 3) (PyVal.atom 3)
      none [] [] []).1,
   (extract_pset_info_single_decomposition 1 (PyVal.atom 7) (PyVal.atom 7)
      (some "i") [1] [PyVal.atom 7] []).2.1 rfl,
   (extract_pset_info_single_decomposition 2 (PyVal.atom 1) (PyVal.atom 1)
      none [] [PyVal.atom 1, PyVal.atom 2] []).2.2 (by simp)⟩

-- ### Claim C8

/-- `applyIdMarks` on an empty id list can only return the empty list. -/
theorem applyIdMarks_nil_ok (ms : List (Option String)) (out : List String)
    (h : applyIdMarks [] ms = .ok out) : out = [] := by
  induction ms with
  | nil => cases h; rfl
  | cons m ms ih =>
    rw [applyIdMarks.eq_def] at h
    dsimp only at h
    cases m with
    | none =>
      dsimp only at h
      cases hrec : applyIdMarks [] ms with
      | error e => rw [hrec] at h; cases h
      | ok r => rw [hrec] at h; cases h; rfl
    | some s => cases h

/-- Entrywise description of `applyIdMarks`: a non-None mark at position `i`
wins, otherwise the incoming id is kept. -/
theorem applyIdMarks_get (ids : List String) (ms : List (Option String))
    (out : List String) (h : applyIdMarks ids ms = .ok out) :
    ∀ i, out.get? i = (match ms.get? i with
      | some (some s) => some s
      | _ => ids.get? i) := by
  induction ms generalizing ids out with
  | nil =>
    rw [applyIdMarks.eq_def] at h
    dsimp only at h
    cases h
    intro i
    simp
  | cons m ms ih =>
    intro i
    cases ids with
    | nil =>
      cases m with
      | some s => cases h
      | none =>
        have hout := applyIdMarks_nil_ok (none :: ms) out h
        subst hout
        rw [applyIdMarks.eq_def] at h
        dsimp only at h
        cases hrec : applyIdMarks [] ms with
        | error e => rw [hrec] at h; cases h
        | ok r =>
          have hr := applyIdMarks_nil_ok ms r hrec
          subst hr
          cases i with
          | zero => simp
          | succ j =>
            have := ih [] [] hrec j
            simpa using this
    | cons x xs =>
      rw [applyIdMarks.eq_def] at h
      dsimp only at h
      cases hrec : applyIdMarks xs ms with
      | error e => rw [hrec] at h; cases h
      | ok rest =>
        rw [hrec] at h
        cases h
        cases i with
        | zero => cases m <;> simp
        | succ j =>
          have := ih xs rest hrec j
          simpa using this

/-- Claim C8: identifier precedence in `make_test_ids`.  When a global `ids`
override is supplied: (1) a non-None per-value id mark determines the final
id at its position; (2) positions without a mark take the global override's
token; (3) the value/index-derived sources (argnames and precomputed ids) are
ignored entirely. -/
theorem make_test_ids_precedence
    (g : GlobalIds) (id_marks : List (Option String))
    (argnames : Option (List String)) (argvalues : Option (List PyVal))
    (pre : Option (List String)) (idval : PyVal → String → Nat → String)
    (out : List String)
    (h : make_test_ids (some g) id_marks argnames argvalues pre idval = .ok out) :
    (∀ i s, id_marks.get? i = some (some s) → out.get? i = some s)
    ∧ (∀ i p_ids, globalPids g argvalues = .ok p_ids →
        (id_marks.get? i = some none ∨ id_marks.length ≤ i) →
        out.get? i = p_ids.get? i)
    ∧ make_test_ids (some g) id_marks argnames argvalues pre idval
        = make_test_ids (some g) id_marks none argvalues none idval := by
  rw [make_test_ids.eq_def] at h
  dsimp only at h
  cases hg : globalPids g argvalues with
  | error e => rw [hg] at h; cases h
  | ok p_ids =>
    rw [hg] at h
    have hget := applyIdMarks_get p_ids id_marks out h
    refine ⟨fun i s hi => ?_, fun i q hq hnone => ?_, rfl⟩
    · rw [hget i, hi]
    · cases hq
      rcases hnone with hi | hi
      · rw [hget i, hi]
      · rw [hget i]
        have : id_marks.get? i = none := List.get?_eq_none.mpr hi
        rw [this]

/-- Witness for C8: a mark overrides the first global token, the unmarked
position keeps the second global token. -/
theorem make_test_ids_precedence_witness :
    (["custom", "g2"] : List String).get? 0 = some "custom"
    ∧ (["custom", "g2"] : List String).get? 1 = some "g2" :=
  have h := make_test_ids_precedence (GlobalIds.lst ["g1", "g2"])
    [some "custom", none] none none none idvalStub ["custom", "g2"] rfl
  ⟨h.1 0 "custom" rfl, h.2.1 1 ["g1", "g2"] rfl (Or.inl rfl)⟩

-- ### Claim C2

/-- Claim C2 (code behaviour at the failing input): binding a
fixture-requiring case registers a fixture under its id on the host; binding
the same case (same id, same underlying producer) a second time does not look
up and reuse the existing binding but raises NotImplementedError. -/
theorem case_to_argvalues_second_bind_raises :
    case_to_argvalues ⟨[]⟩ ⟨"case_a", [], true, false, [], 7⟩
      = .ok (⟨[("case_a", 7)]⟩, [Argvalue.fixtureRef "case_a"])
    ∧ case_to_argvalues ⟨[("case_a", 7)]⟩ ⟨"case_a", [], true, false, [], 7⟩
      = .error (.notImplementedError notImplMsg) :=
  ⟨rfl, rfl⟩

-- ### Claim C6

/-- Counterexample for C6: with neither derived module importable, the error
raised for host module `pkg.test_foo` in default AUTO mode names only the
`pkg.test_foo_cases` form; the alternate `cases_foo` form appears nowhere in
the message. -/
theorem auto_discovery_error_names_single_module :
    import_default_cases_module [] "pkg.test_foo" "f" false
      = .error (.valueError (autoImportErrMsg "f" false "pkg.test_foo_cases"))
    ∧ strContainsB (autoImportErrMsg "f" false "pkg.test_foo_cases")
        "pkg.test_foo_cases" = true
    ∧ strContainsB (autoImportErrMsg "f" false "pkg.test_foo_cases")
        "cases_foo" = false := by
  refine ⟨rfl, ?_, ?_⟩ <;> decide

/-- Claim C6 (amended): each AUTO mode derives a single cases module name
(`<host>_cases`, or `cases_<basename>` in alternate mode) and, when it cannot
be imported, raises a ValueError naming the originating function, the mode,
and that single attempted module name. -/
theorem auto_discovery_failure_message
    (importable : List String) (hostModule fRepr cname : String) :
    (derive_cases_module_name hostModule false = .ok (hostModule ++ "_cases"))
    ∧ (derive_cases_module_name hostModule false = .ok cname →
        importable.contains cname = false →
        import_default_cases_module importable hostModule fRepr false
          = .error (.valueError (autoImportErrMsg fRepr false cname)))
    ∧ (derive_cases_module_name hostModule true = .ok cname →
        importable.contains cname = false →
        import_default_cases_module importable hostModule fRepr true
          = .error (.valueError (autoImportErrMsg fRepr true cname))) := by
  refine ⟨rfl, fun hd hc => ?_, fun hd hc => ?_⟩ <;>
    · rw [import_default_cases_module, hd]
      dsimp only
      rw [hc]
      rfl

/-- Witness for C6 (amended): both modes on host `pkg.test_foo` with no
importable module raise the per-mode single-name error. -/
theorem auto_discovery_failure_message_witness :
    import_default_cases_module [] "pkg.test_foo" "f" false
      = .error (.valueError (autoImportErrMsg "f" false "pkg.test_foo_cases"))
    ∧ import_default_cases_module [] "pkg.test_foo" "f" true
      = .error (.valueError (autoImportErrMsg "f" true "pkg.cases_foo")) :=
  ⟨(auto_discovery_failure_message [] "pkg.test_foo" "f" "pkg.test_foo_cases").2.1
      rfl rfl,
   (auto_discovery_failure_message [] "pkg.test_foo" "f" "pkg.cases_foo").2.2
      rfl rfl⟩

-- ### Claim C5

/-- The keys assigned to a class's nested cases are the class's first line
plus `i / t` for `i < t`. -/
theorem assignClassKeys_map_fst (fl : Nat) (cs : List CaseFn) :
    (assignClassKeys fl cs).map Prod.fst
      = (List.range cs.length).map
          (fun i : Nat => (fl : Rat) + (i : Rat) / (cs.length : Rat)) := by
  apply List.ext_getElem
  · simp [assignClassKeys]
  · intro i h1 h2
    simp [assignClassKeys]

/-- Claim C5 (amended): within one container, the extracted case list is the
value list of the case dictionary sorted by ascending declaration-order key;
filtering preserves that relative order; and a nested case class's cases are
keyed at the class's own first line plus the fractional offset `i / t`. -/
theorem collection_order_within_container (ms : List Mem) (host : Option String)
    (keep : CaseFn → Bool) (name : String) (fl : Nat) (nm hI hN : Bool)
    (cms : List Mem) :
    List.Sorted keyLE (collectedKeyed ms host)
    ∧ (extractFromMembers ms host).2 = (collectedKeyed ms host).map Prod.snd
    ∧ ((extractFromMembers ms host).2.filter keep).Sublist
        (extractFromMembers ms host).2
    ∧ (memContrib (Mem.cl name fl nm hI hN cms) host).2.map Prod.fst
        = (List.range
            (extract_cases_from_class name fl nm hI hN cms true).2.length).map
            (fun i : Nat => (fl : Rat) + (i : Rat) /
              ((extract_cases_from_class name fl nm hI hN cms true).2.length : Rat)) := by
  refine ⟨List.sorted_insertionSort keyLE _, rfl, List.filter_sublist _, ?_⟩
  rw [memContrib, extract_cases_from_class]
  by_cases hnm : is_case_class nm true = true
  · rw [if_pos hnm, if_pos hnm, if_pos hnm]
    exact assignClassKeys_map_fst fl _
  · rw [if_neg hnm, if_neg hnm]
    simp

/-- Counterexample for C5 as stated: with two module providers the collected
list concatenates the providers' contributions in provider order, so the
overall list is not ascending by source line number (lines [10, 5]). -/
theorem get_all_cases_not_globally_sorted :
    casesOf (get_all_cases
      [Provider.pmod [Mem.fn ⟨"case_b", 10, false, true, [], none, none⟩],
       Provider.pmod [Mem.fn ⟨"case_a", 5, false, true, [], none, none⟩]] keepAll)
      = [⟨"case_b", 10, false, true, [], none, none⟩,
         ⟨"case_a", 5, false, true, [], none, none⟩]
    ∧ ascNat ((casesOf (get_all_cases
      [Provider.pmod [Mem.fn ⟨"case_b", 10, false, true, [], none, none⟩],
       Provider.pmod [Mem.fn ⟨"case_a", 5, false, true, [], none, none⟩]] keepAll)).map
        CaseFn.firstline) = false :=
  ⟨rfl, rfl⟩

-- ### Claim C9

/-- Claim C9: a case class declaring its own `__init__` (or `__new__`) is
skipped with a non-fatal warning and contributes zero cases, and the
surrounding collection continues: the member loop proceeds with only the
warning recorded, and the `get_all_cases` provider loop likewise continues
over the remaining providers without raising. -/
theorem class_with_constructor_warned_and_skipped
    (name : String) (fl : Nat) (nm hasI hasN : Bool) (ms : List Mem)
    (checkName : Bool) (acc : List (Rat × CaseFn)) (ws : List String)
    (rest : List Mem) (host : Option String) (ps : List Provider)
    (w2 : List String) (cs2 : List CaseFn) :
    (is_case_class nm checkName = true → hasI = true →
      extract_cases_from_class name fl nm hasI hasN ms checkName
        = ([initConstructorWarning name], []))
    ∧ (is_case_class nm checkName = true → hasI = false → hasN = true →
      extract_cases_from_class name fl nm hasI hasN ms checkName
        = ([newConstructorWarning name], []))
    ∧ (hasI = true → is_case_class nm true = true →
      buildDctAux acc ws (Mem.cl name fl nm hasI hasN ms :: rest) host
        = buildDctAux acc (ws ++ [initConstructorWarning name]) rest host)
    ∧ (hasI = true → get_all_cases_collect ps = .ok (w2, cs2) →
      get_all_cases_collect (Provider.pcls name fl nm hasI hasN ms :: ps)
        = .ok (initConstructorWarning name :: w2, cs2)) := by
  have hext : ∀ cn : Bool, is_case_class nm cn = true → hasI = true →
      extract_cases_from_class name fl nm hasI hasN ms cn
        = ([initConstructorWarning name], []) := by
    intro cn hcc hI
    subst hI
    rw [extract_cases_from_class, if_pos hcc]
    rfl
  have hmc : ∀ host2 : Option String, hasI = true → is_case_class nm true = true →
      memContrib (Mem.cl name fl nm hasI hasN ms) host2
        = ([initConstructorWarning name], []) := by
    intro host2 hI hcc
    subst hI
    rw [memContrib, if_pos hcc, if_pos hcc]
    rfl
  refine ⟨hext checkName, ?_, ?_, ?_⟩
  · intro hcc hI hN2
    subst hI; subst hN2
    rw [extract_cases_from_class, if_pos hcc]
    rfl
  · intro hI hcc
    rw [buildDctAux.eq_def]
    dsimp only
    rw [hmc host hI hcc]
    rfl
  · intro hI hps
    rw [get_all_cases_collect.eq_def]
    dsimp only [providerCases]
    rw [hext false rfl hI, hps]
    rfl

/-- Witness for C9: a case class at line 3 with its own `__init__` is skipped
with the warning, in the member loop and in the provider loop. -/
theorem class_with_constructor_warned_and_skipped_witness :
    extract_cases_from_class "CaseX" 3 true true false [] true
      = ([initConstructorWarning "CaseX"], [])
    ∧ buildDctAux [] [] [Mem.cl "CaseX" 3 true true false []] none
      = ([initConstructorWarning "CaseX"], [])
    ∧ get_all_cases_collect [Provider.pcls "CaseX" 3 true true false []]
      = .ok ([initConstructorWarning "CaseX"], []) := by
  have h := class_with_constructor_warned_and_skipped "CaseX" 3 true true false
    [] true [] [] [] none [] [] []
  exact ⟨h.1 rfl rfl, (h.2.2.1 rfl rfl).trans rfl, h.2.2.2 rfl rfl⟩

-- ### Claim C10

/-- Claim C10: inside a class, a member function matching the case predicate
but stored as a staticmethod/classmethod is silently skipped (no warning, no
case); an ordinary matching method is collected under its first line after
being partially applied to a fresh class instance, with the original name,
case info and marks preserved. -/
theorem static_and_classmethods_skipped
    (f : CaseFn) (h : String) :
    (f.isCaseFun = true → f.isStaticOrClassmethod = true →
      memContrib (Mem.fn f) (some h) = ([], []))
    ∧ (f.isCaseFun = true → f.isStaticOrClassmethod = false →
      memContrib (Mem.fn f) (some h)
        = ([], [((f.firstline : Rat), bindToClass h f)])
      ∧ (bindToClass h f).name = f.name
      ∧ (bindToClass h f).marks = f.marks
      ∧ (bindToClass h f).caseInfoId = f.caseInfoId
      ∧ (bindToClass h f).bound = some h) := by
  constructor
  · intro hc hs
    simp [memContrib, hc, hs]
  · intro hc hs
    refine ⟨?_, rfl, rfl, rfl, rfl⟩
    simp [memContrib, hc, hs]

/-- Witness for C10: a staticmethod case contributes nothing; an ordinary
method case is bound to the class with metadata preserved. -/
theorem static_and_classmethods_skipped_witness :
    memContrib (Mem.fn ⟨"case_s", 4, true, true, [], none, none⟩) (some "Host")
      = ([], [])
    ∧ memContrib (Mem.fn ⟨"case_m", 6, false, true, [7], some "mid", none⟩)
        (some "Host")
      = ([], [((6 : Rat),
          bindToClass "Host" ⟨"case_m", 6, false, true, [7], some "mid", none⟩)]) :=
  ⟨(static_and_classmethods_skipped ⟨"case_s", 4, true, true, [], none, none⟩
      "Host").1 rfl rfl,
   ((static_and_classmethods_skipped ⟨"case_m", 6, false, true, [7], some "mid", none⟩
      "Host").2 rfl rfl).1⟩

end PytestCases
